import Mathlib

/-!
Verification of the live-voice audio subsystem of this repository
(`src/components/LiveVoiceSession.tsx`) against its specification.

The TypeScript source is shallowly embedded: byte sequences are lists of
naturals below 256, binary strings (whose character codes are the bytes)
are identified with those byte lists, base64 text is a list of characters,
audio time and sample values (JS doubles holding exact small rationals in
the scenarios considered) are rationals, and the mutable refs of the React
component become explicit state records transformed by pure functions.
-/

namespace LiveVoice

/-! ## Base64 transport layer (source lines 6-21: `decode`, `encode`)

The host primitives `btoa`/`atob` are modelled on the standard base64
alphabet.  `encode` turns bytes into a one-char-per-byte binary string and
applies `btoa`; since that intermediate string's char codes are exactly
the bytes, the binary string is identified with the byte list itself. -/

/-- The standard base64 alphabet, in sextet order. -/
def b64Chars : List Char :=
  ['A','B','C','D','E','F','G','H','I','J','K','L','M','N','O','P','Q','R','S','T','U','V','W','X','Y','Z',
   'a','b','c','d','e','f','g','h','i','j','k','l','m','n','o','p','q','r','s','t','u','v','w','x','y','z',
   '0','1','2','3','4','5','6','7','8','9','+','/']

/-- Character encoding a sextet (6-bit value). -/
def b64Char (n : Nat) : Char := b64Chars.getD n '='

/-- Sextet value of a base64 character. -/
def b64Val (c : Char) : Nat := b64Chars.indexOf c

/-- Host `btoa`: base64-encode a binary string (given by its char codes).
Three input bytes become four sextet characters; a final block of one or
two bytes is padded with `=`. -/
def btoa : List Nat → List Char
  | [] => []
  | [a] => [b64Char (a / 4), b64Char (a % 4 * 16), '=', '=']
  | [a, b] => [b64Char (a / 4), b64Char (a % 4 * 16 + b / 16), b64Char (b % 16 * 4), '=']
  | a :: b :: c :: rest =>
      b64Char (a / 4) :: b64Char (a % 4 * 16 + b / 16) ::
      b64Char (b % 16 * 4 + c / 64) :: b64Char (c % 64) :: btoa rest

/-- Host `atob`: decode base64 text back to the char codes of the binary
string.  Four characters yield three bytes, fewer at a padded tail. -/
def atob : List Char → List Nat
  | c1 :: c2 :: c3 :: c4 :: rest =>
      if c3 = '=' then
        [b64Val c1 * 4 + b64Val c2 / 16]
      else if c4 = '=' then
        [b64Val c1 * 4 + b64Val c2 / 16, b64Val c2 % 16 * 16 + b64Val c3 / 4]
      else
        (b64Val c1 * 4 + b64Val c2 / 16) :: (b64Val c2 % 16 * 16 + b64Val c3 / 4) ::
        (b64Val c3 % 4 * 64 + b64Val c4) :: atob rest
  | _ => []

/-- Source `encode` (lines 15-21): build the binary string byte-per-char
and apply `btoa`.  The transport text `toTransportText` of the spec. -/
def encode (bytes : List Nat) : List Char := btoa bytes

/-- Source `decode` (lines 6-13): apply `atob` and read the char codes
back as bytes.  The `fromTransportText` of the spec. -/
def decode (base64 : List Char) : List Nat := atob base64

/-- A byte list: every element is below 256. -/
def ValidBytes (l : List Nat) : Prop := ∀ x ∈ l, x < 256

instance : DecidablePred ValidBytes := fun l =>
  inferInstanceAs (Decidable (∀ x ∈ l, x < 256))

theorem b64Val_b64Char_fin : ∀ n : Fin 64, b64Val (b64Char n.val) = n.val := by decide

theorem b64Char_ne_pad_fin : ∀ n : Fin 64, b64Char n.val ≠ '=' := by decide

theorem b64Val_b64Char {n : Nat} (h : n < 64) : b64Val (b64Char n) = n :=
  b64Val_b64Char_fin ⟨n, h⟩

theorem b64Char_ne_pad {n : Nat} (h : n < 64) : b64Char n ≠ '=' :=
  b64Char_ne_pad_fin ⟨n, h⟩

theorem sextet2_div (a b : Nat) (hb : b < 256) : (a % 4 * 16 + b / 16) / 16 = a % 4 := by
  rw [Nat.mul_comm (a % 4) 16, Nat.mul_add_div (by norm_num), Nat.div_div_eq_div_mul,
    Nat.div_eq_of_lt (by omega), Nat.add_zero]

theorem sextet2_mod (a b : Nat) (hb : b < 256) : (a % 4 * 16 + b / 16) % 16 = b / 16 := by
  rw [Nat.mul_comm (a % 4) 16, Nat.mul_add_mod, Nat.mod_eq_of_lt (by omega)]

theorem sextet3_div (b c : Nat) (hc : c < 256) : (b % 16 * 4 + c / 64) / 4 = b % 16 := by
  rw [Nat.mul_comm (b % 16) 4, Nat.mul_add_div (by norm_num), Nat.div_div_eq_div_mul,
    Nat.div_eq_of_lt (by omega), Nat.add_zero]

theorem sextet3_mod (b c : Nat) (hc : c < 256) : (b % 16 * 4 + c / 64) % 4 = c / 64 := by
  rw [Nat.mul_comm (b % 16) 4, Nat.mul_add_mod, Nat.mod_eq_of_lt (by omega)]

theorem pad1_div (a : Nat) : a % 4 * 16 / 16 = a % 4 :=
  Nat.mul_div_cancel (a % 4) (by norm_num)

theorem pad2_div (b : Nat) : b % 16 * 4 / 4 = b % 16 :=
  Nat.mul_div_cancel (b % 16) (by norm_num)

/-- Round trip of the host primitives on byte lists. -/
theorem atob_btoa (l : List Nat) (hl : ValidBytes l) : atob (btoa l) = l := by
  match l with
  | [] => rfl
  | [a] =>
      have ha : a < 256 := hl a (by simp)
      have h1 : a / 4 < 64 := by omega
      have h2 : a % 4 * 16 < 64 := by omega
      simp only [btoa, atob, if_pos rfl, if_true, b64Val_b64Char h1, b64Val_b64Char h2,
        pad1_div, List.cons.injEq, and_true]
      omega
  | [a, b] =>
      have ha : a < 256 := hl a (by simp)
      have hb : b < 256 := hl b (by simp)
      have h1 : a / 4 < 64 := by omega
      have h2 : a % 4 * 16 + b / 16 < 64 := by omega
      have h3 : b % 16 * 4 < 64 := by omega
      simp only [btoa, atob, if_neg (b64Char_ne_pad h3), if_pos rfl, if_true,
        b64Val_b64Char h1, b64Val_b64Char h2, b64Val_b64Char h3,
        sextet2_div a b hb, sextet2_mod a b hb, pad2_div, List.cons.injEq, and_true]
      omega
  | a :: b :: c :: rest =>
      have ha : a < 256 := hl a (by simp)
      have hb : b < 256 := hl b (by simp)
      have hc : c < 256 := hl c (by simp)
      have h1 : a / 4 < 64 := by omega
      have h2 : a % 4 * 16 + b / 16 < 64 := by omega
      have h3 : b % 16 * 4 + c / 64 < 64 := by omega
      have h4 : c % 64 < 64 := by omega
      have ih : atob (btoa rest) = rest :=
        atob_btoa rest (fun x hx => hl x (by simp [hx]))
      simp only [btoa, atob, if_neg (b64Char_ne_pad h3), if_neg (b64Char_ne_pad h4),
        b64Val_b64Char h1, b64Val_b64Char h2, b64Val_b64Char h3, b64Val_b64Char h4, ih,
        sextet2_div a b hb, sextet2_mod a b hb, sextet3_div b c hc, sextet3_mod b c hc,
        List.cons.injEq, and_true]
      omega

/-- Claim C4: for every byte sequence `b`, decoding the transport text
produced by encoding gives back `b`: the base64 transport encoding is
lossless and reversible. -/
theorem transport_roundtrip (b : List Nat) (hb : ValidBytes b) :
    decode (encode b) = b :=
  atob_btoa b hb

/-- Witness for C4 at a concrete byte sequence. -/
theorem transport_roundtrip_witness :
    ValidBytes [77, 97, 0, 255, 116, 104] ∧
      decode (encode [77, 97, 0, 255, 116, 104]) = [77, 97, 0, 255, 116, 104] :=
  ⟨by decide, transport_roundtrip [77, 97, 0, 255, 116, 104] (by decide)⟩

/-! ## Outbound PCM16 codec (source lines 65-72: `onaudioprocess`)

The capture callback writes `inputData[i] * 32768` into an `Int16Array`;
the JS assignment applies ToInt16 (truncate the double toward zero, then
take the value modulo 2^16 into the signed 16-bit range).  The
`Uint8Array` view of the array's buffer then exposes each element's
two's-complement representation as two little-endian bytes. -/

/-- Truncation of a rational toward zero, as JS double-to-integer
conversion does for the exact values considered here. -/
def truncRat (q : ℚ) : Int := q.num.tdiv q.den

/-- JS ToInt16: truncate toward zero, reduce modulo 2^16, and reinterpret
in the signed 16-bit range `[-32768, 32768)`. -/
def toInt16 (q : ℚ) : Int :=
  let w := truncRat q % 65536
  if w < 32768 then w else w - 65536

/-- Little-endian byte view of one `Int16Array` element: the two bytes of
the element's two's-complement representation, low byte first. -/
def int16LEBytes (v : Int) : List Nat :=
  let w := (v % 65536).toNat
  [w % 256, w / 256]

/-- The `Int16Array` filled by the `onaudioprocess` loop (source lines
67-68): element `i` is `inputData[i] * 32768` stored through ToInt16. -/
def onaudioprocessInt16 (inputData : List ℚ) : List Int :=
  inputData.map (fun s => toInt16 (s * 32768))

/-- The `Uint8Array` view of an `Int16Array`'s buffer: the concatenated
little-endian bytes of its elements. -/
def int16BufferBytes (arr : List Int) : List Nat :=
  arr.flatMap int16LEBytes

/-- The raw bytes the capture callback hands to `encode` (source line 70). -/
def onaudioprocessBytes (inputData : List ℚ) : List Nat :=
  int16BufferBytes (onaudioprocessInt16 inputData)

/-- Reduction of an integer into the signed 16-bit range `[-32768, 32768)`
(two's-complement wrap-around). -/
def toSigned16 (n : Int) : Int := (n + 32768) % 65536 - 32768

/-- Modelled from the spec: `encodeOutbound` — scales each sample by
32768, truncates the result to a signed 16-bit integer, and packs each
integer little-endian as two bytes of its two's-complement form. -/
def encodeOutbound (samples : List ℚ) : List Nat :=
  samples.flatMap (fun s =>
    let v := toSigned16 (truncRat (s * 32768))
    [(v % 65536).toNat % 256, (v % 65536).toNat / 256])

/-! ## Inbound decoding and the playback scheduler
(source lines 23-34: `decodeAudioData`; lines 78-95: `onmessage`) -/

/-- The spec's `MalformedAudioError`: raised while interpreting inbound
bytes as 16-bit samples.  The concrete host error is the `RangeError`
thrown by `new Int16Array(buffer)` on a buffer of odd byte length. -/
inductive MalformedAudioError where
  | rangeError
deriving DecidableEq

/-- A decoded device-native audio buffer (host `AudioBuffer`): per-channel
sample data at a sample rate. -/
structure AudioBuffer where
  sampleRate : ℚ
  numberOfChannels : Nat
  channelData : List (List ℚ)
deriving DecidableEq

/-- Frame count of a buffer (host `AudioBuffer.length`). -/
def AudioBuffer.frames (b : AudioBuffer) : Nat := (b.channelData.headD []).length

/-- Host `AudioBuffer.duration`: frame count over sample rate, in seconds. -/
def AudioBuffer.duration (b : AudioBuffer) : ℚ := (b.frames : ℚ) / b.sampleRate

/-- Successive byte pairs read as little-endian signed 16-bit integers
(the `Int16Array` view of the decoded bytes, source line 24). -/
def bytesToInt16 : List Nat → List Int
  | lo :: hi :: rest =>
      (let u := lo + 256 * hi
       if u < 32768 then (u : Int) else (u : Int) - 65536) :: bytesToInt16 rest
  | _ => []

/-- Source `decodeAudioData` (lines 23-34): view the bytes as signed
16-bit samples — a `RangeError` when the byte length is odd — then
de-interleave `frameCount = dataInt16.length / numChannels` frames and
rescale each sample by `1 / 32768`. -/
def decodeAudioData (data : List Nat) (sampleRate : ℚ) (numChannels : Nat) :
    Except MalformedAudioError AudioBuffer :=
  if data.length % 2 ≠ 0 then .error .rangeError
  else
    let dataInt16 := bytesToInt16 data
    let frameCount := dataInt16.length / numChannels
    .ok { sampleRate := sampleRate
          numberOfChannels := numChannels
          channelData :=
            (List.range numChannels).map (fun channel =>
              (List.range frameCount).map (fun i =>
                ((dataInt16.getD (i * numChannels + channel) 0 : ℚ) / 32768))) }

/-- The playback scheduler's mutable state: the `nextStartTimeRef` cursor,
the ids of the sources in `sourcesRef` (the spec's ScheduledSourceSet) in
insertion order, and a counter supplying fresh source ids. -/
structure PlayState where
  nextStartTime : ℚ
  sources : List Nat
  nextId : Nat
deriving DecidableEq

/-- Observable playback actions: starting a source at a device time, or
stopping a source. -/
inductive AudioAction where
  | start (id : Nat) (time : ℚ)
  | stop (id : Nat)
deriving DecidableEq

/-- Source lines 82-89: create a source for the decoded buffer, move the
cursor to `max(nextStartTime, currentTime)`, start the source there,
advance the cursor by the buffer's duration, and add the source to the
set.  `t` is `outputCtx.currentTime`.  Returns the new state and the
scheduled start time. -/
def scheduleBuffer (t : ℚ) (buf : AudioBuffer) (st : PlayState) : PlayState × ℚ :=
  let startTime := max st.nextStartTime t
  (⟨startTime + buf.duration, st.sources ++ [st.nextId], st.nextId + 1⟩, startTime)

/-- Source lines 92-94: stop every source in the set, clear the set, and
reset the cursor to 0.  Returns the new state and the stop actions. -/
def interruptPlayback (st : PlayState) : PlayState × List AudioAction :=
  (⟨0, [], st.nextId⟩, st.sources.map AudioAction.stop)

/-- An inbound server message as seen by `onmessage`: optional inline
audio bytes and the `interrupted` flag. -/
structure ServerMsg where
  audioData : Option (List Nat)
  interrupted : Bool
deriving DecidableEq

/-- Source lines 78-95: the `onmessage` handler at device time `t`.  Audio
is decoded and scheduled first; the `interrupted` flag is handled second.
A decoding error rejects the handler before any further statement runs,
so the state is left untouched (`.error`). -/
def onmessage (t : ℚ) (m : ServerMsg) (st : PlayState) :
    Except MalformedAudioError (PlayState × List AudioAction) :=
  match m.audioData with
  | some bytes =>
      match decodeAudioData bytes 24000 1 with
      | .error e => .error e
      | .ok buf =>
          let r := scheduleBuffer t buf st
          if m.interrupted then
            let ri := interruptPlayback r.1
            .ok (ri.1, AudioAction.start st.nextId r.2 :: ri.2)
          else
            .ok (r.1, [AudioAction.start st.nextId r.2])
  | none =>
      if m.interrupted then
        let ri := interruptPlayback st
        .ok (ri.1, ri.2)
      else
        .ok (st, [])

/-- Events that reach the playback scheduler: an inbound message at a
device time, or a source ending naturally (`onended`, source line 89). -/
inductive SessionEv where
  | message (t : ℚ) (m : ServerMsg)
  | ended (id : Nat)
deriving DecidableEq

/-- One scheduler step.  A rejected `onmessage` (malformed chunk) leaves
the state unchanged: the rejection is dropped by the host and the next
event is processed from the same state. -/
def stepEv (st : PlayState) : SessionEv → PlayState
  | .message t m =>
      match onmessage t m st with
      | .ok r => r.1
      | .error _ => st
  | .ended id => { st with sources := st.sources.erase id }

/-- Run the scheduler over a sequence of events. -/
def runEvents (st : PlayState) (evs : List SessionEv) : PlayState :=
  evs.foldl stepEv st

/-! ## Session lifecycle (source lines 49-125: `startSession`,
`stopSession`, `onerror`)

The component's UI state and resource-release counters are made explicit;
the counters record how often each release operation has been invoked
over the session's lifetime. -/

/-- The component's state: whether `sessionRef.current` is set, the
`isActive` flag, the status label, and how many times each release
operation (`session.close()`, stopping the microphone stream, closing an
`AudioContext`) has been invoked. -/
structure UIState where
  hasSession : Bool
  isActive : Bool
  status : String
  sessionCloseCalls : Nat
  micStopCalls : Nat
  ctxCloseCalls : Nat
deriving DecidableEq

/-- Source lines 121-125: `stopSession` invokes `sessionRef.current?.close()`
— one more call to the remote session's `close` whenever the ref is set,
it is never cleared — then resets the UI flags.  No microphone-stream stop
and no `AudioContext.close` appears anywhere in the component. -/
def stopSession (st : UIState) : UIState :=
  { st with
    sessionCloseCalls := st.sessionCloseCalls + (if st.hasSession then 1 else 0)
    isActive := false
    status := "Idle" }

/-- Source lines 97-100: the `onerror` callback logs the error and sets
the status label; nothing else changes and nothing is released. -/
def onerror (st : UIState) : UIState := { st with status := "Error" }

/-- The externally visible steps of `startSession` (source lines 49-119),
in program order. -/
inductive StartEv where
  | acquireInputCtx
  | acquireOutputCtx
  | acquireMic
  | connectRemote
  | sessionCreated
  | fail (status : String)
deriving DecidableEq

/-- Source lines 49-119: `startSession` constructs the 16 kHz input
context and the 24 kHz output context, then requests the microphone; on
denial the `catch` sets the status and nothing further runs, otherwise the
remote connection is opened and the session stored. -/
def startSessionTrace (micGranted : Bool) : List StartEv :=
  [StartEv.acquireInputCtx, StartEv.acquireOutputCtx] ++
    (if micGranted then [StartEv.acquireMic, StartEv.connectRemote, StartEv.sessionCreated]
     else [StartEv.fail "Permission Denied"])

/-- Resource-acquisition events occurring strictly before the first
failure event of a `startSession` trace. -/
def acquisitionsBeforeFailure (tr : List StartEv) : Nat :=
  (tr.takeWhile (fun e => match e with | .fail _ => false | _ => true)).countP
    (fun e => match e with
      | .acquireInputCtx | .acquireOutputCtx | .acquireMic => true
      | _ => false)

/-! ## Theorems about the outbound codec -/

theorem toInt16_eq_toSigned16 (q : ℚ) : toInt16 q = toSigned16 (truncRat q) := by
  simp only [toInt16, toSigned16]
  split <;> omega

theorem onaudioprocessBytes_eq_encodeOutbound (samples : List ℚ) :
    onaudioprocessBytes samples = encodeOutbound samples := by
  unfold onaudioprocessBytes onaudioprocessInt16 int16BufferBytes encodeOutbound
  induction samples with
  | nil => rfl
  | cons s rest ih =>
      simp only [toInt16_eq_toSigned16] at ih
      simp only [List.map_cons, List.flatMap_cons, int16LEBytes, toInt16_eq_toSigned16, ih]

theorem onaudioprocessBytes_length (samples : List ℚ) :
    (onaudioprocessBytes samples).length = 2 * samples.length := by
  unfold onaudioprocessBytes onaudioprocessInt16 int16BufferBytes
  induction samples with
  | nil => rfl
  | cons s rest ih =>
      simp only [List.map_cons, List.flatMap_cons, List.length_append, ih, int16LEBytes,
        List.length_cons, List.length_nil, List.length_map]
      omega

/-- Claim C5: for every sequence of samples in `[-1, 1]`, the capture
callback produces exactly the bytes of the spec's `encodeOutbound` —
each sample scaled by 32768, truncated to a signed 16-bit integer, packed
little-endian — and the output holds two bytes per sample. -/
theorem capture_encodes_pcm16le (samples : List ℚ)
    (hrange : ∀ s ∈ samples, -1 ≤ s ∧ s ≤ 1) :
    onaudioprocessBytes samples = encodeOutbound samples ∧
      (onaudioprocessBytes samples).length = 2 * samples.length :=
  ⟨onaudioprocessBytes_eq_encodeOutbound samples, onaudioprocessBytes_length samples⟩

/-- Witness for C5 on the concrete sample list `[0, 1, -1]`. -/
theorem capture_encodes_pcm16le_witness :
    (∀ s ∈ [(0 : ℚ), 1, -1], -1 ≤ s ∧ s ≤ 1) ∧
      (onaudioprocessBytes [(0 : ℚ), 1, -1] = encodeOutbound [(0 : ℚ), 1, -1] ∧
        (onaudioprocessBytes [(0 : ℚ), 1, -1]).length = 2 * ([(0 : ℚ), 1, -1]).length) :=
  ⟨by intro s hs; fin_cases hs <;> norm_num,
   capture_encodes_pcm16le [(0 : ℚ), 1, -1] (by intro s hs; fin_cases hs <;> norm_num)⟩

/-- Claim C10: at the upper boundary of the stated range the conversion
wraps modulo 2^16 instead of saturating: the sample `1.0` scales to
32768 and is stored as `-32768` (bytes `00 80` little-endian), not
clamped to 32767. -/
theorem boundary_sample_wraps :
    toInt16 ((1 : ℚ) * 32768) = -32768 ∧
      toInt16 ((1 : ℚ) * 32768) ≠ 32767 ∧
      onaudioprocessInt16 [(1 : ℚ)] = [-32768] ∧
      onaudioprocessBytes [(1 : ℚ)] = [0, 128] := by
  have htr : truncRat ((1 : ℚ) * 32768) = 32768 := by norm_num [truncRat]
  have h16 : toInt16 ((1 : ℚ) * 32768) = -32768 := by
    simp only [toInt16, htr]
    norm_num
  refine ⟨h16, by rw [h16]; decide, ?_, ?_⟩
  · simp only [onaudioprocessInt16, List.map_cons, List.map_nil, h16]
  · simp only [onaudioprocessBytes, onaudioprocessInt16, int16BufferBytes, List.map_cons,
      List.map_nil, List.flatMap_cons, List.flatMap_nil, h16, int16LEBytes]
    decide

/-! ## Theorems about the playback scheduler -/

theorem decodeAudioData_duration_nonneg (data : List Nat) (numChannels : Nat)
    (buf : AudioBuffer) (h : decodeAudioData data 24000 numChannels = .ok buf) :
    0 ≤ buf.duration := by
  unfold decodeAudioData at h
  split at h
  · exact absurd h (by simp)
  · simp only [Except.ok.injEq] at h
    subst h
    unfold AudioBuffer.duration
    positivity

/-- Claim C1: each chunk starts at `max(nextStartTime, deviceCurrentTime)`
and moves the cursor to that start plus the buffer's duration; hence three
chunks delivered faster than real time (each arriving while the cursor is
still ahead of the device clock) play gaplessly back-to-back, never in the
past. -/
theorem scheduling_gapless (st : PlayState) (t1 t2 t3 : ℚ) (b1 b2 b3 : AudioBuffer)
    (hfast2 : t2 ≤ (scheduleBuffer t1 b1 st).1.nextStartTime)
    (hfast3 : t3 ≤ (scheduleBuffer t2 b2 (scheduleBuffer t1 b1 st).1).1.nextStartTime) :
    (scheduleBuffer t1 b1 st).2 = max st.nextStartTime t1 ∧
      (scheduleBuffer t1 b1 st).1.nextStartTime = (scheduleBuffer t1 b1 st).2 + b1.duration ∧
      (scheduleBuffer t2 b2 (scheduleBuffer t1 b1 st).1).2 =
        (scheduleBuffer t1 b1 st).2 + b1.duration ∧
      (scheduleBuffer t3 b3 (scheduleBuffer t2 b2 (scheduleBuffer t1 b1 st).1).1).2 =
        (scheduleBuffer t2 b2 (scheduleBuffer t1 b1 st).1).2 + b2.duration ∧
      t1 ≤ (scheduleBuffer t1 b1 st).2 ∧
      t2 ≤ (scheduleBuffer t2 b2 (scheduleBuffer t1 b1 st).1).2 ∧
      t3 ≤ (scheduleBuffer t3 b3 (scheduleBuffer t2 b2 (scheduleBuffer t1 b1 st).1).1).2 := by
  exact ⟨rfl, rfl, max_eq_left hfast2, max_eq_left hfast3,
    le_max_right _ _, le_max_right _ _, le_max_right _ _⟩

/-- Witness for C1: three one-second buffers arriving at device times
0, 1/2, 1, starting from the idle scheduler state. -/
theorem scheduling_gapless_witness :
    ((1 : ℚ) / 2 ≤ (scheduleBuffer 0 ⟨1, 1, [[0]]⟩ ⟨0, [], 0⟩).1.nextStartTime ∧
        (1 : ℚ) ≤ (scheduleBuffer (1 / 2) ⟨1, 1, [[0]]⟩
          (scheduleBuffer 0 ⟨1, 1, [[0]]⟩ ⟨0, [], 0⟩).1).1.nextStartTime) ∧
      (scheduleBuffer (1 / 2) ⟨1, 1, [[0]]⟩
          (scheduleBuffer 0 ⟨1, 1, [[0]]⟩ ⟨0, [], 0⟩).1).2 =
        (scheduleBuffer 0 ⟨1, 1, [[0]]⟩ ⟨0, [], 0⟩).2 +
          (⟨1, 1, [[0]]⟩ : AudioBuffer).duration := by
  have h2 : (1 : ℚ) / 2 ≤ (scheduleBuffer 0 ⟨1, 1, [[0]]⟩ ⟨0, [], 0⟩).1.nextStartTime := by
    simp only [scheduleBuffer, AudioBuffer.duration, AudioBuffer.frames]
    norm_num
  have h3 : (1 : ℚ) ≤ (scheduleBuffer (1 / 2) ⟨1, 1, [[0]]⟩
      (scheduleBuffer 0 ⟨1, 1, [[0]]⟩ ⟨0, [], 0⟩).1).1.nextStartTime := by
    simp only [scheduleBuffer, AudioBuffer.duration, AudioBuffer.frames]
    norm_num
  exact ⟨⟨h2, h3⟩,
    (scheduling_gapless ⟨0, [], 0⟩ 0 (1 / 2) 1 ⟨1, 1, [[0]]⟩ ⟨1, 1, [[0]]⟩ ⟨1, 1, [[0]]⟩
      h2 h3).2.2.1⟩

/-- Claim C2: handling an interruption signal stops every source in the
set, empties the set, and resets the cursor to 0; a chunk delivered
afterwards is scheduled at `max(0, deviceCurrentTime)`. -/
theorem interruption_clears (st : PlayState) (t u : ℚ) (b : AudioBuffer) :
    onmessage t ⟨none, true⟩ st =
        .ok (⟨0, [], st.nextId⟩, st.sources.map AudioAction.stop) ∧
      (scheduleBuffer u b ⟨0, [], st.nextId⟩).2 = max 0 u :=
  ⟨rfl, rfl⟩

/-- C3 as stated is false on the code: after an interruption at device
time 3 with the cursor at 5, the cursor is 0, not the device's current
time 3. -/
theorem cursor_reset_counterexample :
    (stepEv ⟨5, [], 0⟩ (.message 3 ⟨none, true⟩)).nextStartTime = 0 ∧
      (stepEv ⟨5, [], 0⟩ (.message 3 ⟨none, true⟩)).nextStartTime ≠ 3 := by
  constructor
  · rfl
  · intro h
    rw [show (stepEv ⟨5, [], 0⟩ (.message 3 ⟨none, true⟩)).nextStartTime = 0 from rfl] at h
    norm_num at h

/-- Claim C3 (amended): across every scheduler event the cursor never
decreases, except that a successfully handled interruption resets it to 0
(a malformed interrupted message leaves the state untouched); and a newly
scheduled buffer always starts at or after the device's current time. -/
theorem cursor_monotone_amended (st : PlayState) :
    (∀ t m, m.interrupted = false →
        st.nextStartTime ≤ (stepEv st (.message t m)).nextStartTime) ∧
      (∀ id, (stepEv st (.ended id)).nextStartTime = st.nextStartTime) ∧
      (∀ t m, m.interrupted = true →
        (stepEv st (.message t m)).nextStartTime = 0 ∨ stepEv st (.message t m) = st) ∧
      (∀ t b, t ≤ (scheduleBuffer t b st).2) := by
  refine ⟨?_, fun id => rfl, ?_, fun t b => le_max_right _ _⟩
  · intro t m hm
    cases m with
    | mk audioData interrupted =>
      cases audioData with
      | none =>
          simp only at hm
          subst hm
          simp [stepEv, onmessage]
      | some bytes =>
          simp only at hm
          subst hm
          simp only [stepEv, onmessage]
          cases hdec : decodeAudioData bytes 24000 1 with
          | error e => simp
          | ok buf =>
              have hd : 0 ≤ buf.duration := decodeAudioData_duration_nonneg bytes 1 buf hdec
              simp only [scheduleBuffer]
              calc st.nextStartTime ≤ max st.nextStartTime t := le_max_left _ _
                _ ≤ max st.nextStartTime t + buf.duration := le_add_of_nonneg_right hd
  · intro t m hm
    cases m with
    | mk audioData interrupted =>
      cases audioData with
      | none =>
          simp only at hm
          subst hm
          left
          rfl
      | some bytes =>
          simp only at hm
          subst hm
          simp only [stepEv, onmessage]
          cases hdec : decodeAudioData bytes 24000 1 with
          | error e => right; rfl
          | ok buf => left; rfl

/-- Witness for C3 (amended) at a concrete state and events. -/
theorem cursor_monotone_amended_witness :
    ((5 : ℚ) ≤ (stepEv ⟨5, [2], 7⟩ (.message 2 ⟨none, false⟩)).nextStartTime) ∧
      ((stepEv ⟨5, [2], 7⟩ (.message 2 ⟨none, true⟩)).nextStartTime = 0 ∨
        stepEv ⟨5, [2], 7⟩ (.message 2 ⟨none, true⟩) = ⟨5, [2], 7⟩) :=
  ⟨(cursor_monotone_amended ⟨5, [2], 7⟩).1 2 ⟨none, false⟩ rfl,
   (cursor_monotone_amended ⟨5, [2], 7⟩).2.2.1 2 ⟨none, true⟩ rfl⟩

/-- Claim C6: a chunk whose byte length is not a multiple of
`2 * channelCount` (the handler decodes mono, so an odd byte length) is
rejected with `MalformedAudioError`; the handler rejects before touching
the ScheduledSourceSet, and subsequent events are processed from the
unchanged state. -/
theorem malformed_chunk_dropped (st : PlayState) (t : ℚ) (bytes : List Nat)
    (intr : Bool) (hodd : bytes.length % 2 ≠ 0) :
    decodeAudioData bytes 24000 1 = .error .rangeError ∧
      onmessage t ⟨some bytes, intr⟩ st = .error .rangeError ∧
      stepEv st (.message t ⟨some bytes, intr⟩) = st ∧
      ∀ evs, runEvents st (SessionEv.message t ⟨some bytes, intr⟩ :: evs) = runEvents st evs := by
  have hdec : decodeAudioData bytes 24000 1 = .error .rangeError := by
    unfold decodeAudioData
    rw [if_pos hodd]
  refine ⟨hdec, ?_, ?_, ?_⟩
  · simp [onmessage, hdec]
  · simp [stepEv, onmessage, hdec]
  · intro evs
    have hstep : stepEv st (.message t ⟨some bytes, intr⟩) = st := by
      simp [stepEv, onmessage, hdec]
    simp [runEvents, List.foldl_cons, hstep]

/-- Witness for C6 at a one-byte chunk. -/
theorem malformed_chunk_dropped_witness :
    ([(7 : Nat)].length % 2 ≠ 0) ∧
      (onmessage 0 ⟨some [7], false⟩ ⟨0, [], 0⟩ = .error .rangeError ∧
        stepEv ⟨0, [], 0⟩ (.message 0 ⟨some [7], false⟩) = ⟨0, [], 0⟩) :=
  ⟨by decide,
   ⟨(malformed_chunk_dropped ⟨0, [], 0⟩ 0 [7] false (by decide)).2.1,
    (malformed_chunk_dropped ⟨0, [], 0⟩ 0 [7] false (by decide)).2.2.1⟩⟩

/-! ## Theorems about the session lifecycle -/

/-- C7 evaluated at its failing input: calling `stopSession` twice on a
component holding an open session never throws (the model is total), but
the remote session's `close` is invoked once per call — twice in total —
while the microphone stream and the audio contexts are never released at
all (zero release calls over the whole lifetime). -/
theorem double_close_double_release :
    (stopSession (stopSession ⟨true, true, "Listening...", 0, 0, 0⟩)).sessionCloseCalls = 2 ∧
      (stopSession (stopSession ⟨true, true, "Listening...", 0, 0, 0⟩)).micStopCalls = 0 ∧
      (stopSession (stopSession ⟨true, true, "Listening...", 0, 0, 0⟩)).ctxCloseCalls = 0 ∧
      stopSession (stopSession ⟨true, true, "Listening...", 0, 0, 0⟩) =
        ⟨true, false, "Idle", 2, 0, 0⟩ :=
  ⟨rfl, rfl, rfl, rfl⟩

/-- C8 evaluated on an active session: the `onerror` callback surfaces
the error as the status label, but deactivates nothing and releases no
resource — the session reference, microphone and audio contexts are all
kept, and `isActive` stays true. -/
theorem onerror_releases_nothing :
    onerror ⟨true, true, "Listening...", 0, 0, 0⟩ = ⟨true, true, "Error", 0, 0, 0⟩ :=
  rfl

/-- C9 as stated is false on the code: when microphone access is denied,
two audio device contexts have already been acquired before the failure
is surfaced. -/
theorem permission_denied_counterexample :
    acquisitionsBeforeFailure (startSessionTrace false) = 2 ∧
      acquisitionsBeforeFailure (startSessionTrace false) ≠ 0 := by
  decide

/-- Claim C9 (amended): a microphone denial is fatal to session start and
surfaced before the remote connection is opened and before any Session is
created, but only after both audio device contexts have been acquired. -/
theorem permission_denied_before_session :
    startSessionTrace false =
        [StartEv.acquireInputCtx, StartEv.acquireOutputCtx, StartEv.fail "Permission Denied"] ∧
      StartEv.fail "Permission Denied" ∈ startSessionTrace false ∧
      StartEv.acquireMic ∉ startSessionTrace false ∧
      StartEv.connectRemote ∉ startSessionTrace false ∧
      StartEv.sessionCreated ∉ startSessionTrace false ∧
      acquisitionsBeforeFailure (startSessionTrace false) = 2 := by
  decide

end LiveVoice
